import Mathlib

/-!
Shallow embedding of `spacq/gui/action/data_capture.py`: the capture panel's
pre-flight validation (`DataCapturePanel.OnBeginCapture`), the export buffer
pipeline (`flush`, `data_callback`, `close_callback`), the progress dialog's
remaining-time computation (`DataCaptureDialog.OnTimer`) and its guarded
`end` method.  GUI rendering is out of scope; externally observable side
effects (message dialogs, file operations, pub/sub notifications) are
modelled as an explicit effect trace.
-/

/-- A captured value, already rendered as text (the csv writer renders every
value with `str`). -/
abbrev Value := String

inductive VarKind where
  | output
  | input
deriving DecidableEq, Repr

/-- A variable from the global store: `OutputVariable` and `InputVariable`
are distinguished by `kind`; both carry `enabled` and `resource_name`. -/
structure Variable where
  name : String
  enabled : Bool
  resource_name : String
  kind : VarKind
deriving DecidableEq, Repr

/-- A resource from the global store (external collaborator): only its
`readable`/`writable` flags matter to the pre-flight validation. -/
structure Resource where
  readable : Bool
  writable : Bool
deriving DecidableEq, Repr

/-- Modelled from the spec: `sift` (from `spacq.tool.box`, not under `src/`)
selects the variables of one class (output vs. input), preserving order. -/
def sift (vars : List Variable) (k : VarKind) : List Variable :=
  vars.filter (fun v => decide (v.kind = k))

/-- Modelled from the spec: `flatten` (from `spacq.tool.box`, not under
`src/`) flattens the list of output groups one level, giving the
"flattened group order" of the spec. -/
def flatten (groups : List (List Variable)) : List Variable :=
  groups.flatten

/-- The local start time, as the first six components of Python's
`localtime()`: `(tm_year, tm_mon, tm_mday, tm_hour, tm_min, tm_sec)`. -/
structure TimeStruct where
  year : Nat
  mon : Nat
  mday : Nat
  hour : Nat
  minute : Nat
  second : Nat
deriving DecidableEq, Repr

/-- Python's zero-padding format `'{0:0w}'.format(n)`: decimal digits,
left-padded with `'0'` to width `w`. -/
def formatInt (w : Nat) (n : Nat) : String :=
  let s := toString n
  if s.length < w then String.mk (List.replicate (w - s.length) '0') ++ s else s

/-- The auto-generated export file name
`'{0:04}-{1:02}-{2:02}_{3:02}-{4:02}-{5:02}.csv'.format(*localtime())`. -/
def exportFileName (t : TimeStruct) : String :=
  formatInt 4 t.year ++ "-" ++ formatInt 2 t.mon ++ "-" ++ formatInt 2 t.mday ++ "_" ++
    formatInt 2 t.hour ++ "-" ++ formatInt 2 t.minute ++ "-" ++ formatInt 2 t.second ++ ".csv"

/-- `os.path.join(dir, name)` for a relative `name`: inserts the path
separator unless the directory is empty or already ends with one. -/
def pathJoin (d n : String) : String :=
  if d = "" then n
  else if List.isSuffixOf "/".data d.data then d ++ n
  else d ++ "/" ++ n

/-- Externally observable side effects of the capture panel, in program
order: message dialogs, export-file operations, dialog lifecycle, and the
pub/sub notifications `data_capture.start` / `.data` / `.stop`. -/
inductive Effect where
  | message (text title : String)
  | openFile (path : String)
  | csvWriteRow (row : List Value)
  | fileFlush
  | fileClose
  | setLastFileName (path : String)
  | createDialog
  | dialogShow
  | dialogStart
  | pubStart (nm : String)
  | pubData (nm : String) (value : Value)
  | pubStop (nm : String)
deriving DecidableEq, Repr

/-- `max_buf_size = 10` from `OnBeginCapture`. -/
def max_buf_size : Nat := 10

/-- One buffered row: `(cur_time,) + values + measurement_values`. -/
def mkRow (cur_time : Value) (values mvalues : List Value) : List Value :=
  cur_time :: (values ++ mvalues)

/-- `flush()`: `export_csv.writerows(buf)` writes the buffered rows in
order, `export_file.flush()` pushes them to the durable sink, and
`while buf: buf.pop()` empties the buffer.  Returns the effects and the
emptied buffer. -/
def flush (buf : List (List Value)) : List Effect × List (List Value) :=
  (buf.map Effect.csvWriteRow ++ [Effect.fileFlush], [])

/-- `data_callback(cur_time, values, measurement_values)`: publishes one
`data_capture.data` event per `zip(measurement_resource_names,
measurement_values)` pair, then (when exporting) appends the row under
`buf_lock` and flushes synchronously once `len(buf) >= max_buf_size`.
The lock makes the whole body atomic; the model is that atomic transition. -/
def data_callback (exporting : Bool) (mnames : List String)
    (buf : List (List Value)) (cur_time : Value) (values mvalues : List Value) :
    List Effect × List (List Value) :=
  let pubs := (mnames.zip mvalues).map (fun p => Effect.pubData p.1 p.2)
  if exporting then
    let buf' := buf ++ [mkRow cur_time values mvalues]
    if max_buf_size ≤ buf'.length then
      let fl := flush buf'
      (pubs ++ fl.1, fl.2)
    else
      (pubs, buf')
  else
    (pubs, buf)

/-- `close_callback()`: when exporting, flushes under `buf_lock` and closes
the export file; then publishes one `data_capture.stop` event per
measurement resource name.  (The `capture_dialogs` counter is GUI state and
carries no observable effect.) -/
def close_callback (exporting : Bool) (mnames : List String)
    (buf : List (List Value)) : List Effect × List (List Value) :=
  if exporting then
    let fl := flush buf
    (fl.1 ++ [Effect.fileClose] ++ mnames.map Effect.pubStop, fl.2)
  else
    ([] ++ mnames.map Effect.pubStop, buf)

/-- Modelled from the spec: the `SweepController` (not under `src/`) invokes
`data_callback` once per captured Data Row, in capture order.  This folds
those invocations over a run's rows, threading the export buffer. -/
def runRows (exporting : Bool) (mnames : List String) :
    List (Value × List Value × List Value) → List (List Value) →
    List Effect × List (List Value)
  | [], buf => ([], buf)
  | r :: rs, buf =>
    let step := data_callback exporting mnames buf r.1 r.2.1 r.2.2
    let rest := runRows exporting mnames rs step.2
    (step.1 ++ rest.1, rest.2)

/-- Modelled from the spec: over a whole run the `SweepController` (not
under `src/`) delivers the `data_capture.start` notifications at launch
(sent by `OnBeginCapture`), then calls `data_callback` once per captured
Data Row, then calls `close_callback` exactly once at run end — also when
the run ends abnormally.  The buffer starts empty. -/
def runTraceFull (exporting : Bool) (mnames : List String)
    (rows : List (Value × List Value × List Value)) :
    List Effect × List (List Value) :=
  let mid := runRows exporting mnames rows []
  let fin := close_callback exporting mnames mid.2
  (mnames.map Effect.pubStart ++ mid.1 ++ fin.1, fin.2)

/-- The effect trace of a whole run. -/
def runTrace (exporting : Bool) (mnames : List String)
    (rows : List (Value × List Value × List Value)) : List Effect :=
  (runTraceFull exporting mnames rows).1

/-- The capture panel's configuration at the moment the Start button is
pressed: the global store (variables in `values()` order, resources as an
association list), the Continuous and Export checkboxes, the directory
browse field, the filesystem state (`os.path.isdir` / `os.path.exists` as
oracles), the local time, and the external sorting policy
(`sort_variables` from `spacq.iteration.variables`, not under `src/`,
modelled from the spec as an opaque-to-us stable grouping function that
also reports the total item count). -/
structure CaptureConfig where
  store_variables : List Variable
  store_resources : List (String × Resource)
  continuous : Bool
  export_enabled : Bool
  directory : String
  isdir : String → Bool
  pathExists : String → Bool
  localtime : TimeStruct
  sort_variables : List Variable → List (List Variable) × Nat

/-- The arguments handed to `DataCaptureDialog` when the run launches. -/
structure LaunchedRun where
  resources : List (List (String × Option Resource))
  output_variables : List (List Variable)
  num_items : Nat
  measurement_resources : List (String × Resource)
  input_variables : List Variable
  continuous : Bool
  exporting : Bool
  file_path : String
deriving DecidableEq, Repr

/-- `[var for var in self.global_store.variables.values() if var.enabled]`. -/
def enabledVars (cfg : CaptureConfig) : List Variable :=
  cfg.store_variables.filter (fun v => v.enabled)

/-- `output_variables = sift(all_variables, OutputVariable)`. -/
def outputVarsOf (cfg : CaptureConfig) : List Variable :=
  sift (enabledVars cfg) .output

/-- `input_variables = [var for var in sift(all_variables, InputVariable)
if var.resource_name != '']`. -/
def inputVarsOf (cfg : CaptureConfig) : List Variable :=
  (sift (enabledVars cfg) .input).filter (fun v => decide (v.resource_name ≠ ""))

/-- The body of the inner loop over one output group's resource names:
`''` appends a placeholder named `str(len(resources))`, a name absent from
the store goes to `missing_resources`, a non-writable one to
`unwritable_resources`, and otherwise the binding joins the group.  The
accumulator is `(group_resources, missing, unwritable)`. -/
def processName (store : List (String × Resource)) (groupCount : Nat)
    (acc : List (String × Option Resource) × List String × List String)
    (nm : String) : List (String × Option Resource) × List String × List String :=
  if nm = "" then
    (acc.1 ++ [(toString groupCount, none)], acc.2.1, acc.2.2)
  else
    match store.lookup nm with
    | none => (acc.1, acc.2.1 ++ [nm], acc.2.2)
    | some r =>
      if r.writable then (acc.1 ++ [(nm, some r)], acc.2.1, acc.2.2)
      else (acc.1, acc.2.1, acc.2.2 ++ [nm])

/-- The outer loop over output groups, accumulating
`(resources, missing_resources, unwritable_resources)`; `len(resources)`
at placeholder time is the number of groups already appended. -/
def processGroups (store : List (String × Resource))
    (groups : List (List String)) :
    List (List (String × Option Resource)) × List String × List String :=
  groups.foldl
    (fun acc group =>
      let inner := group.foldl (processName store acc.1.length) ([], acc.2.1, acc.2.2)
      (acc.1 ++ [inner.1], inner.2.1, inner.2.2))
    ([], [], [])

/-- The loop over `measurement_resource_names`, accumulating
`(measurement_resources, missing_resources, unreadable_resources)`;
`missing_resources` continues the list built by the output loop. -/
def processMeasurements (store : List (String × Resource))
    (mnames : List String) (missing0 : List String) :
    List (String × Resource) × List String × List String :=
  mnames.foldl
    (fun acc nm =>
      match store.lookup nm with
      | none => (acc.1, acc.2.1 ++ [nm], acc.2.2)
      | some r =>
        if r.readable then (acc.1 ++ [(nm, r)], acc.2.1, acc.2.2)
        else (acc.1, acc.2.1, acc.2.2 ++ [nm]))
    ([], missing0, [])

/-- `', '.join(names)`. -/
def joinComma (names : List String) : String :=
  String.intercalate ", " names

/-- `DataCapturePanel.OnBeginCapture`: pre-flight validation and, when it
all passes, the launch.  Returns the effect trace of the call together
with the launched run (`none` when the run never launches).  The
button-disable guard at the top is GUI-only and effect-free here. -/
def OnBeginCapture (cfg : CaptureConfig) : List Effect × Option LaunchedRun :=
  let output_variables := outputVarsOf cfg
  let input_variables := inputVarsOf cfg
  if output_variables.isEmpty then
    ([Effect.message "No output variables defined" "No variables"], none)
  else
    let sorted := cfg.sort_variables output_variables
    let groups := sorted.1
    let num_items := sorted.2
    let resource_names := groups.map (fun g => g.map (fun v => v.resource_name))
    let measurement_resource_names := input_variables.map (fun v => v.resource_name)
    let out := processGroups cfg.store_resources resource_names
    let meas := processMeasurements cfg.store_resources measurement_resource_names out.2.1
    let resources := out.1
    let unwritable := out.2.2
    let measurement_resources := meas.1
    let missing := meas.2.1
    let unreadable := meas.2.2
    let errMsgs :=
      (if missing ≠ [] then [Effect.message (joinComma missing) "Missing resources"] else []) ++
      (if unreadable ≠ [] then [Effect.message (joinComma unreadable) "Unreadable resources"] else []) ++
      (if unwritable ≠ [] then [Effect.message (joinComma unwritable) "Unwritable resources"] else [])
    if missing ≠ [] ∨ unreadable ≠ [] ∨ unwritable ≠ [] then
      (errMsgs, none)
    else
      let launchTail := fun (exporting : Bool) (file_path : String) (pre : List Effect) =>
        (pre ++ [Effect.createDialog] ++ measurement_resource_names.map Effect.pubStart ++
          [Effect.dialogShow, Effect.dialogStart],
         some { resources := resources, output_variables := groups, num_items := num_items,
                measurement_resources := measurement_resources,
                input_variables := input_variables, continuous := cfg.continuous,
                exporting := exporting, file_path := file_path : LaunchedRun })
      if cfg.export_enabled then
        let d := cfg.directory
        let nm := exportFileName cfg.localtime
        if d = "" then
          ([Effect.message "No directory selected." "Export path"], none)
        else if ¬ cfg.isdir d then
          ([Effect.message "Invalid directory selected" "Export path"], none)
        else
          let file_path := pathJoin d nm
          if cfg.pathExists file_path then
            ([Effect.message file_path "File exists"], none)
          else
            let header :=
              "__time__" :: ((flatten groups).map (fun v => v.name) ++
                input_variables.map (fun v => v.name))
            launchTail true file_path
              [Effect.openFile file_path, Effect.setLastFileName file_path,
               Effect.csvWriteRow header]
      else
        launchTail false "" []

/-- `self.show_remaining_time = not self.continuous` from
`DataCaptureDialog.__init__`. -/
def show_remaining_time (continuous : Bool) : Bool :=
  !continuous

/-- Python's `int()` on a rational: truncation toward zero. -/
def pyIntTrunc (q : ℚ) : ℤ :=
  if 0 ≤ q then ⌊q⌋ else ⌈q⌉

/-- The remaining-time computation of `DataCaptureDialog.OnTimer`: inside
the `num_items > 0 and item >= 0` guard, `amount_done = item / num_items`
(exact division in the model, float in CPython), and when
`show_remaining_time and amount_done > 0` the label is updated with
`int(total_time - elapsed)` for `total_time = elapsed / amount_done`.
Returns the displayed remaining time in microseconds, `none` when the
label is not updated. -/
def OnTimerRemaining (continuous : Bool) (num_items : Nat) (item : Int)
    (elapsed : ℚ) : Option ℤ :=
  if 0 < num_items ∧ 0 ≤ item then
    let amount_done : ℚ := (item : ℚ) / (num_items : ℚ)
    if show_remaining_time continuous = true ∧ 0 < amount_done then
      some (pyIntTrunc (elapsed / amount_done - elapsed))
    else
      none
  else
    none

/-- The run state that `SweepController.end` consults: whether the sweep
was ever started and whether it has already ended. -/
structure SweepRunState where
  started : Bool
  ended : Bool
deriving DecidableEq, Repr

/-- Modelled from the spec: `SweepController.end` (not under `src/`)
asserts — raising `AssertionError` — when the run has already ended or was
never started, and otherwise marks the run as ended. -/
def sweepControllerEnd (st : SweepRunState) : Except Unit SweepRunState :=
  if st.started = true ∧ st.ended = false then
    Except.ok { st with ended := true }
  else
    Except.error ()

/-- Observable actions of `DataCaptureDialog.end` after a successful
`SweepController.end`: the minimum-display stall, stopping the timer and
destroying the dialog. -/
inductive EndEffect where
  | stall
  | stopTimer
  | destroy
deriving DecidableEq, Repr

/-- `DataCaptureDialog.end`: calls `SweepController.end(self)` inside
`try/except AssertionError: return`, so the `AssertionError` of a second
or premature invocation is swallowed and the dialog state is untouched;
on success it stalls out the minimum display time, stops the timer and
destroys the dialog. -/
def DataCaptureDialog_end (st : SweepRunState) : SweepRunState × List EndEffect :=
  match sweepControllerEnd st with
  | Except.error _ => (st, [])
  | Except.ok st' => (st', [EndEffect.stall, EndEffect.stopTimer, EndEffect.destroy])

/-- Spec-side characterization: the output resource names, flattened in
group order. -/
def flatOutputNames (cfg : CaptureConfig) : List String :=
  (flatten (cfg.sort_variables (outputVarsOf cfg)).1).map (fun v => v.resource_name)

/-- Spec-side characterization: the measurement resource names, in input
variable order. -/
def measurementNames (cfg : CaptureConfig) : List String :=
  (inputVarsOf cfg).map (fun v => v.resource_name)

/-- Spec-side characterization of `missing_resources`: every non-empty
requested output name absent from the store (in flattened group order),
followed by every measurement name absent from the store. -/
def specMissing (cfg : CaptureConfig) : List String :=
  (flatOutputNames cfg).filter
      (fun nm => decide (nm ≠ "") && (cfg.store_resources.lookup nm).isNone) ++
    (measurementNames cfg).filter (fun nm => (cfg.store_resources.lookup nm).isNone)

/-- Spec-side characterization of `unwritable_resources`: every requested
output name bound in the store to a non-writable resource. -/
def specUnwritable (cfg : CaptureConfig) : List String :=
  (flatOutputNames cfg).filter
    (fun nm => decide (nm ≠ "") &&
      match cfg.store_resources.lookup nm with
      | some r => !r.writable
      | none => false)

/-- Spec-side characterization of `unreadable_resources`: every
measurement name bound in the store to a non-readable resource. -/
def specUnreadable (cfg : CaptureConfig) : List String :=
  (measurementNames cfg).filter
    (fun nm =>
      match cfg.store_resources.lookup nm with
      | some r => !r.readable
      | none => false)

/-- An effect is a message dialog. -/
def Effect.isMessage : Effect → Bool
  | Effect.message _ _ => true
  | _ => false

/-- A sorting policy for concrete tests: each output variable in its own
group, one item per variable. -/
def singletonSort (vars : List Variable) : List (List Variable) × Nat :=
  (vars.map (fun v => [v]), vars.length)

/-- A concrete configuration exercising the happy path. -/
def demoConfig : CaptureConfig :=
  { store_variables :=
      [{ name := "out0", enabled := true, resource_name := "ro", kind := .output },
       { name := "in0", enabled := true, resource_name := "ri", kind := .input }],
    store_resources :=
      [("ro", { readable := false, writable := true }),
       ("ri", { readable := true, writable := false })],
    continuous := false,
    export_enabled := false,
    directory := "",
    isdir := fun _ => false,
    pathExists := fun _ => false,
    localtime := { year := 2026, mon := 10, mday := 12, hour := 8, minute := 46, second := 3 },
    sort_variables := singletonSort }

/-- A configuration with one offender of each kind: output resource `w1`
and input resource `r1` are absent from the store, `w2` is bound but not
writable, `r2` is bound but not readable. -/
def offendersConfig : CaptureConfig :=
  { demoConfig with
    store_variables :=
      [{ name := "o1", enabled := true, resource_name := "w1", kind := .output },
       { name := "o2", enabled := true, resource_name := "w2", kind := .output },
       { name := "i1", enabled := true, resource_name := "r1", kind := .input },
       { name := "i2", enabled := true, resource_name := "r2", kind := .input }],
    store_resources :=
      [("w2", { readable := false, writable := false }),
       ("r2", { readable := false, writable := true })] }

/-- A configuration in which two distinct input variables name the same
readable resource `a`. -/
def duplicateNamesConfig : CaptureConfig :=
  { demoConfig with
    store_variables :=
      [{ name := "o1", enabled := true, resource_name := "ro", kind := .output },
       { name := "i1", enabled := true, resource_name := "a", kind := .input },
       { name := "i2", enabled := true, resource_name := "a", kind := .input }],
    store_resources :=
      [("ro", { readable := false, writable := true }),
       ("a", { readable := true, writable := false })] }

/-- The demo configuration with export enabled into a valid, empty
directory. -/
def exportingConfig : CaptureConfig :=
  { demoConfig with
    export_enabled := true,
    directory := "/data",
    isdir := fun d => d == "/data",
    pathExists := fun _ => false }

/-- The rows written to the durable sink by an effect trace, in write
order. -/
def sinkRows (tr : List Effect) : List (List Value) :=
  tr.filterMap (fun e =>
    match e with
    | Effect.csvWriteRow r => some r
    | _ => none)

/-- The names carried by `data_capture.start` events, in delivery order. -/
def startsOf (tr : List Effect) : List String :=
  tr.filterMap (fun e =>
    match e with
    | Effect.pubStart n => some n
    | _ => none)

/-- The names carried by `data_capture.stop` events, in delivery order. -/
def stopsOf (tr : List Effect) : List String :=
  tr.filterMap (fun e =>
    match e with
    | Effect.pubStop n => some n
    | _ => none)

/-- The notification events concerning one resource name, in delivery
order. -/
def eventsFor (nm : String) (tr : List Effect) : List Effect :=
  tr.filter (fun e =>
    match e with
    | Effect.pubStart n => decide (n = nm)
    | Effect.pubData n _ => decide (n = nm)
    | Effect.pubStop n => decide (n = nm)
    | _ => false)

/-- The measurement values published for resource name `nm` out of one
row, as paired by `zip(measurement_resource_names, measurement_values)`. -/
def sampleFor (nm : String) (mnames : List String) (mv : List Value) : List Value :=
  ((mnames.zip mv).filter (fun p => decide (p.1 = nm))).map (fun p => p.2)

/-- The pre-flight conditions under which the run launches, stated from
the spec's error taxonomy: some output variable is defined, no requested
resource is missing, unreadable or unwritable, and (when exporting) the
directory is present and valid and the destination file does not exist. -/
def preflightOk (cfg : CaptureConfig) : Prop :=
  outputVarsOf cfg ≠ [] ∧
  specMissing cfg = [] ∧ specUnreadable cfg = [] ∧ specUnwritable cfg = [] ∧
  (cfg.export_enabled = true →
    cfg.directory ≠ "" ∧ cfg.isdir cfg.directory = true ∧
    cfg.pathExists (pathJoin cfg.directory (exportFileName cfg.localtime)) = false)

example :
    (OnBeginCapture demoConfig).1 =
      [Effect.createDialog, Effect.pubStart "ri", Effect.dialogShow, Effect.dialogStart] := by
  decide

example : (OnBeginCapture demoConfig).2.isSome = true := by decide

example : exportFileName demoConfig.localtime = "2026-10-12_08-46-03.csv" := by decide

example : (flush [["1", "a"], ["2", "b"]]).1 =
    [Effect.csvWriteRow ["1", "a"], Effect.csvWriteRow ["2", "b"], Effect.fileFlush] := by
  decide

example :
    (data_callback true ["m"] [] "0" ["x"] ["y"]).2 = [["0", "x", "y"]] := by
  decide

theorem data_callback_true (mnames : List String) (buf : List (List Value))
    (t : Value) (vs ms : List Value) :
    data_callback true mnames buf t vs ms =
      if max_buf_size ≤ buf.length + 1 then
        ((mnames.zip ms).map (fun p => Effect.pubData p.1 p.2) ++
          ((buf ++ [mkRow t vs ms]).map Effect.csvWriteRow ++ [Effect.fileFlush]), [])
      else
        ((mnames.zip ms).map (fun p => Effect.pubData p.1 p.2), buf ++ [mkRow t vs ms]) := by
  simp [data_callback, flush]

theorem sinkRows_fileFlush : sinkRows [Effect.fileFlush] = [] := by
  rfl

theorem sinkRows_fileClose : sinkRows [Effect.fileClose] = [] := by
  rfl

theorem sinkRows_append (a b : List Effect) :
    sinkRows (a ++ b) = sinkRows a ++ sinkRows b := by
  simp [sinkRows]

theorem sinkRows_map_pubData (l : List (String × Value)) :
    sinkRows (l.map (fun p => Effect.pubData p.1 p.2)) = [] := by
  induction l with
  | nil => rfl
  | cons x xs ih => simp [sinkRows]

theorem sinkRows_map_csvWriteRow (l : List (List Value)) :
    sinkRows (l.map Effect.csvWriteRow) = l := by
  induction l with
  | nil => rfl
  | cons x xs ih => simpa [sinkRows] using ih

/-- C1: with export enabled, a `data_callback` append is atomic (the whole
body runs under `buf_lock`), and from any buffer shorter than
`max_buf_size` it leaves the buffer shorter than `max_buf_size`: the
append that reaches length 10 triggers a synchronous flush before the call
returns (emptying the buffer), and otherwise no flush happens and the row
is simply appended, so the 10th row is flushed before an 11th can be
buffered. -/
theorem C1_export_buffer_flush_invariant (mnames : List String)
    (buf : List (List Value)) (t : Value) (vs ms : List Value)
    (h : buf.length < max_buf_size) :
    (data_callback true mnames buf t vs ms).2.length < max_buf_size ∧
    (Effect.fileFlush ∈ (data_callback true mnames buf t vs ms).1 ↔
      buf.length + 1 = max_buf_size) ∧
    (buf.length + 1 = max_buf_size → (data_callback true mnames buf t vs ms).2 = []) ∧
    (buf.length + 1 < max_buf_size →
      Effect.fileFlush ∉ (data_callback true mnames buf t vs ms).1 ∧
      (data_callback true mnames buf t vs ms).2 = buf ++ [mkRow t vs ms]) := by
  rw [data_callback_true]
  by_cases hge : max_buf_size ≤ buf.length + 1
  · have heq : buf.length + 1 = max_buf_size := by omega
    rw [if_pos hge]
    exact ⟨by simp [max_buf_size], iff_of_true (by simp) heq, fun _ => rfl,
      fun hlt => absurd heq (by omega)⟩
  · have hne : buf.length + 1 ≠ max_buf_size := by omega
    rw [if_neg hge]
    exact ⟨by simp; omega, iff_of_false (by simp) hne, fun habs => absurd habs hne,
      fun _ => ⟨by simp, rfl⟩⟩

/-- C1 witness: a buffer holding 9 rows is flushed by the 10th append. -/
theorem C1_export_buffer_flush_invariant_witness :
    Effect.fileFlush ∈
      (data_callback true ["m"] (List.replicate 9 ["r"]) "0" ["a"] ["b"]).1 ↔
      (List.replicate 9 (["r"] : List Value)).length + 1 = max_buf_size :=
  (C1_export_buffer_flush_invariant ["m"] (List.replicate 9 ["r"]) "0" ["a"] ["b"]
    (by decide)).2.1

theorem sinkRows_map_pubStop (l : List String) :
    sinkRows (l.map Effect.pubStop) = [] := by
  induction l with
  | nil => rfl
  | cons n ns ih => simp [sinkRows]

theorem close_callback_sink (mnames : List String) (buf : List (List Value)) :
    sinkRows (close_callback true mnames buf).1 = buf ∧
    (close_callback true mnames buf).2 = [] := by
  constructor
  · show sinkRows ((buf.map Effect.csvWriteRow ++ [Effect.fileFlush]) ++
      [Effect.fileClose] ++ mnames.map Effect.pubStop) = buf
    simp only [sinkRows_append, sinkRows_map_csvWriteRow, sinkRows_map_pubStop,
      sinkRows_fileFlush, sinkRows_fileClose]
    simp
  · rfl

theorem runRows_sink (mnames : List String)
    (rows : List (Value × List Value × List Value)) :
    ∀ buf : List (List Value),
      sinkRows (runRows true mnames rows buf).1 ++ (runRows true mnames rows buf).2 =
        buf ++ rows.map (fun r => mkRow r.1 r.2.1 r.2.2) := by
  induction rows with
  | nil => intro buf; simp [runRows, sinkRows]
  | cons r rs ih =>
    intro buf
    simp only [runRows, data_callback_true]
    by_cases hge : max_buf_size ≤ buf.length + 1
    · rw [if_pos hge]
      simp only [sinkRows_append, sinkRows_map_pubData, sinkRows_map_csvWriteRow,
        sinkRows_fileFlush]
      have := ih []
      simp only [List.nil_append] at this
      simp [this]
    · rw [if_neg hge]
      simp only [sinkRows_append, sinkRows_map_pubData]
      have := ih (buf ++ [mkRow r.1 r.2.1 r.2.2])
      simp only [List.nil_append, List.append_assoc] at this ⊢
      simpa using this

theorem sinkRows_map_pubStart (l : List String) :
    sinkRows (l.map Effect.pubStart) = [] := by
  induction l with
  | nil => rfl
  | cons n ns ih => simp [sinkRows]

/-- C2: over a whole exporting run, the durable sink receives exactly the
captured rows, in arrival order (oldest first); every flush leaves the
buffer empty, and the final `close_callback`-driven flush (delivered by
the controller at run end, normal or abnormal) drains whatever the
periodic flushes left, so the run ends with an empty buffer and no row
lost, duplicated or reordered. -/
theorem C2_flush_writes_all_rows_in_order (mnames : List String)
    (rows : List (Value × List Value × List Value)) (buf : List (List Value)) :
    sinkRows (runTrace true mnames rows) =
      rows.map (fun r => mkRow r.1 r.2.1 r.2.2) ∧
    (runTraceFull true mnames rows).2 = [] ∧
    sinkRows (close_callback true mnames buf).1 = buf ∧
    (close_callback true mnames buf).2 = [] := by
  have hmid := runRows_sink mnames rows []
  simp only [List.nil_append] at hmid
  have hclose := close_callback_sink mnames (runRows true mnames rows []).2
  refine ⟨?_, ?_, (close_callback_sink mnames buf).1, (close_callback_sink mnames buf).2⟩
  · simp only [runTrace, runTraceFull, sinkRows_append, sinkRows_map_pubStart,
      List.nil_append]
    rw [hclose.1]
    exact hmid
  · simp only [runTraceFull]
    exact hclose.2

theorem startsOf_append (a b : List Effect) :
    startsOf (a ++ b) = startsOf a ++ startsOf b := by
  simp [startsOf]

theorem stopsOf_append (a b : List Effect) :
    stopsOf (a ++ b) = stopsOf a ++ stopsOf b := by
  simp [stopsOf]

theorem startsOf_eq_nil (l : List Effect) (h : ∀ nm, Effect.pubStart nm ∉ l) :
    startsOf l = [] := by
  simp only [startsOf, List.filterMap_eq_nil_iff]
  intro e he
  cases e <;> simp_all

theorem stopsOf_eq_nil (l : List Effect) (h : ∀ nm, Effect.pubStop nm ∉ l) :
    stopsOf l = [] := by
  simp only [stopsOf, List.filterMap_eq_nil_iff]
  intro e he
  cases e <;> simp_all

theorem startsOf_map_pubStart (l : List String) :
    startsOf (l.map Effect.pubStart) = l := by
  induction l with
  | nil => rfl
  | cons n ns ih =>
    simp only [startsOf, List.map_cons, List.filterMap_cons] at ih ⊢
    rw [ih]

theorem stopsOf_map_pubStop (l : List String) :
    stopsOf (l.map Effect.pubStop) = l := by
  induction l with
  | nil => rfl
  | cons n ns ih =>
    simp only [stopsOf, List.map_cons, List.filterMap_cons] at ih ⊢
    rw [ih]

theorem startsOf_data_callback (e : Bool) (m : List String)
    (buf : List (List Value)) (t : Value) (vs ms : List Value) :
    startsOf (data_callback e m buf t vs ms).1 = [] := by
  apply startsOf_eq_nil
  intro nm
  by_cases hb : max_buf_size ≤ buf.length + 1 <;>
    rcases e <;> simp [data_callback, flush, hb]

theorem stopsOf_data_callback (e : Bool) (m : List String)
    (buf : List (List Value)) (t : Value) (vs ms : List Value) :
    stopsOf (data_callback e m buf t vs ms).1 = [] := by
  apply stopsOf_eq_nil
  intro nm
  by_cases hb : max_buf_size ≤ buf.length + 1 <;>
    rcases e <;> simp [data_callback, flush, hb]

theorem startsOf_runRows (e : Bool) (m : List String)
    (rows : List (Value × List Value × List Value)) :
    ∀ buf, startsOf (runRows e m rows buf).1 = [] := by
  induction rows with
  | nil => intro buf; rfl
  | cons r rs ih =>
    intro buf
    simp only [runRows, startsOf_append, startsOf_data_callback, ih, List.append_nil]

theorem stopsOf_runRows (e : Bool) (m : List String)
    (rows : List (Value × List Value × List Value)) :
    ∀ buf, stopsOf (runRows e m rows buf).1 = [] := by
  induction rows with
  | nil => intro buf; rfl
  | cons r rs ih =>
    intro buf
    simp only [runRows, stopsOf_append, stopsOf_data_callback, ih, List.append_nil]

theorem startsOf_close_callback (e : Bool) (m : List String)
    (buf : List (List Value)) :
    startsOf (close_callback e m buf).1 = [] := by
  apply startsOf_eq_nil
  intro nm
  rcases e <;> simp [close_callback, flush]

theorem stopsOf_close_callback (e : Bool) (m : List String)
    (buf : List (List Value)) :
    stopsOf (close_callback e m buf).1 = m := by
  rcases e
  · show stopsOf ([] ++ m.map Effect.pubStop) = m
    simp only [stopsOf_append, stopsOf_map_pubStop, List.nil_append]
  · show stopsOf ((buf.map Effect.csvWriteRow ++ [Effect.fileFlush]) ++
      [Effect.fileClose] ++ m.map Effect.pubStop) = m
    have h1 : stopsOf (buf.map Effect.csvWriteRow) = [] := by
      apply stopsOf_eq_nil
      intro nm
      simp
    simp only [List.append_assoc, List.singleton_append, stopsOf_append, h1,
      List.nil_append]
    simp only [stopsOf, List.filterMap_cons]
    exact stopsOf_map_pubStop m

/-- C4: the close handler flushes the remaining buffer to the sink and
closes the export file when exporting (and only stop notifications when
not), then signals `data_capture.stop` for exactly the resource names that
were signalled `data_capture.start` at launch; it is total and well
defined on an empty buffer, where the final flush writes no rows. -/
theorem C4_close_callback_stops_every_started_channel
    (mnames : List String) (buf : List (List Value)) (e : Bool)
    (rows : List (Value × List Value × List Value)) :
    (close_callback true mnames buf).1 =
      buf.map Effect.csvWriteRow ++ [Effect.fileFlush, Effect.fileClose] ++
        mnames.map Effect.pubStop ∧
    (close_callback false mnames buf).1 = mnames.map Effect.pubStop ∧
    (close_callback true mnames []).1 =
      [Effect.fileFlush, Effect.fileClose] ++ mnames.map Effect.pubStop ∧
    startsOf (runTrace e mnames rows) = mnames ∧
    stopsOf (runTrace e mnames rows) = mnames := by
  refine ⟨by simp [close_callback, flush], rfl, by simp [close_callback, flush], ?_, ?_⟩
  · simp only [runTrace, runTraceFull, startsOf_append, startsOf_map_pubStart,
      startsOf_runRows, startsOf_close_callback, List.append_nil]
  · have h1 : stopsOf (mnames.map Effect.pubStart) = [] := by
      apply stopsOf_eq_nil
      intro nm
      simp
    simp [runTrace, runTraceFull, stopsOf_append, stopsOf_runRows,
      stopsOf_close_callback, h1]

/-- C8: `DataCaptureDialog.end` swallows the `AssertionError` that
`SweepController.end` raises on an already-ended or never-started run, so
such an invocation is a harmless no-op (state unchanged, no effects), and
a second invocation after any first one is always a no-op — covering both
the normal completion path and the close-button/cancel path, which both
call `end`. -/
theorem C8_end_is_guarded_noop (st : SweepRunState) :
    (st.ended = true ∨ st.started = false → DataCaptureDialog_end st = (st, [])) ∧
    DataCaptureDialog_end ((DataCaptureDialog_end st).1) =
      ((DataCaptureDialog_end st).1, []) := by
  constructor
  · intro h
    rcases h with h | h <;>
      simp [DataCaptureDialog_end, sweepControllerEnd, h]
  · rcases hs : st.started <;> rcases he : st.ended <;>
      simp [DataCaptureDialog_end, sweepControllerEnd, hs, he]

/-- C8 witness: `end` on a never-started run leaves the state untouched
and performs no action. -/
theorem C8_end_is_guarded_noop_witness :
    DataCaptureDialog_end { started := false, ended := false } =
      ({ started := false, ended := false }, []) :=
  (C8_end_is_guarded_noop { started := false, ended := false }).1 (Or.inr rfl)

/-- C7: at each status poll, the remaining-time display is computed from
the formula `elapsed / (item / num_items) − elapsed` (exactly, up to the
whole-microsecond truncation `int()` applies); it is shown only when at
least one item has completed (`amount_done > 0`, i.e. `item > 0`), and in
continuous mode (`show_remaining_time = not continuous`) it is never
shown. -/
theorem C7_remaining_time_formula (continuous : Bool) (num_items : Nat)
    (item : ℤ) (elapsed : ℚ) :
    (continuous = true → OnTimerRemaining continuous num_items item elapsed = none) ∧
    (continuous = false → 0 < num_items → 0 < item →
      OnTimerRemaining continuous num_items item elapsed =
        some (pyIntTrunc (elapsed / ((item : ℚ) / (num_items : ℚ)) - elapsed))) ∧
    (item ≤ 0 → OnTimerRemaining continuous num_items item elapsed = none) := by
  refine ⟨?_, ?_, ?_⟩
  · intro hc
    subst hc
    simp [OnTimerRemaining, show_remaining_time]
  · intro hc hn hi
    subst hc
    have hguard : 0 < num_items ∧ 0 ≤ item := ⟨hn, le_of_lt hi⟩
    have hpos : (0 : ℚ) < (item : ℚ) / (num_items : ℚ) := by
      apply div_pos
      · exact_mod_cast hi
      · exact_mod_cast hn
    simp [OnTimerRemaining, show_remaining_time, hguard, hpos]
  · intro hi
    rcases lt_or_eq_of_le hi with hlt | heq
    · simp [OnTimerRemaining, not_le.mpr hlt]
    · subst heq
      simp [OnTimerRemaining, show_remaining_time]

/-- C7 witness: with 4 items, 1 done and 8 µs elapsed, the poll displays
`8 / (1/4) − 8`. -/
theorem C7_remaining_time_formula_witness :
    OnTimerRemaining false 4 1 8 =
      some (pyIntTrunc ((8 : ℚ) / (((1 : ℤ) : ℚ) / ((4 : Nat) : ℚ)) - 8)) :=
  (C7_remaining_time_formula false 4 1 8).2.1 rfl (by norm_num) (by norm_num)

theorem outputVarsOf_drop_empty_input (cfg : CaptureConfig)
    (pre post : List Variable) (v : Variable) (hk : v.kind = VarKind.input) :
    outputVarsOf { cfg with store_variables := pre ++ v :: post } =
      outputVarsOf { cfg with store_variables := pre ++ post } := by
  by_cases hv : v.enabled <;>
    simp [outputVarsOf, enabledVars, sift, List.filter_append, hv, hk]

theorem inputVarsOf_drop_empty_input (cfg : CaptureConfig)
    (pre post : List Variable) (v : Variable) (hk : v.kind = VarKind.input)
    (hr : v.resource_name = "") :
    inputVarsOf { cfg with store_variables := pre ++ v :: post } =
      inputVarsOf { cfg with store_variables := pre ++ post } := by
  by_cases hv : v.enabled <;>
    simp [inputVarsOf, enabledVars, sift, List.filter_append, hv, hk, hr]

/-- C9: an input variable whose resource name is the empty string is
filtered out of `input_variables` before anything else happens, so the
whole `OnBeginCapture` call — validation, error messages, notifications,
CSV header, launch — behaves exactly as if the variable were absent from
the store. -/
theorem C9_empty_name_input_excluded (cfg : CaptureConfig)
    (pre post : List Variable) (v : Variable) (hk : v.kind = VarKind.input)
    (hr : v.resource_name = "") :
    OnBeginCapture { cfg with store_variables := pre ++ v :: post } =
      OnBeginCapture { cfg with store_variables := pre ++ post } := by
  simp only [OnBeginCapture]
  rw [outputVarsOf_drop_empty_input cfg pre post v hk,
    inputVarsOf_drop_empty_input cfg pre post v hk hr]

/-- C9 witness: adding such a variable to the demo configuration changes
nothing. -/
theorem C9_empty_name_input_excluded_witness :
    OnBeginCapture { demoConfig with store_variables :=
      demoConfig.store_variables ++
        { name := "ghost", enabled := true, resource_name := "",
          kind := VarKind.input } :: [] } =
      OnBeginCapture { demoConfig with store_variables :=
        demoConfig.store_variables ++ [] } :=
  C9_empty_name_input_excluded demoConfig demoConfig.store_variables []
    { name := "ghost", enabled := true, resource_name := "", kind := VarKind.input }
    rfl rfl

theorem processName_fold (store : List (String × Resource)) (gc : Nat)
    (names : List String) :
    ∀ grs miss unw,
      (names.foldl (processName store gc) (grs, miss, unw)).2.1 =
        miss ++ names.filter
          (fun nm => decide (nm ≠ "") && (store.lookup nm).isNone) ∧
      (names.foldl (processName store gc) (grs, miss, unw)).2.2 =
        unw ++ names.filter
          (fun nm => decide (nm ≠ "") &&
            match store.lookup nm with
            | some r => !r.writable
            | none => false) := by
  induction names with
  | nil => intro grs miss unw; simp
  | cons nm ns ih =>
    intro grs miss unw
    simp only [List.foldl_cons, List.filter_cons]
    by_cases h0 : nm = ""
    · subst h0
      simp only [processName, if_pos rfl, decide_not]
      simpa using ih (grs ++ [(toString gc, none)]) miss unw
    · cases hl : store.lookup nm with
      | none =>
        simp only [processName, if_neg h0, hl]
        have := ih grs (miss ++ [nm]) unw
        simp [h0, hl, this.1, this.2]
      | some r =>
        by_cases hw : r.writable
        · simp only [processName, if_neg h0, hl, if_pos hw]
          have := ih (grs ++ [(nm, some r)]) miss unw
          simp [h0, hl, hw, this.1, this.2]
        · simp only [processName, if_neg h0, hl, if_neg hw]
          have := ih grs miss (unw ++ [nm])
          simp [h0, hl, hw, this.1, this.2]

theorem processGroups_fold (store : List (String × Resource))
    (groups : List (List String)) :
    ∀ ress miss unw,
      (groups.foldl
          (fun acc group =>
            let inner := group.foldl (processName store acc.1.length) ([], acc.2.1, acc.2.2)
            (acc.1 ++ [inner.1], inner.2.1, inner.2.2))
          (ress, miss, unw)).2.1 =
        miss ++ groups.flatten.filter
          (fun nm => decide (nm ≠ "") && (store.lookup nm).isNone) ∧
      (groups.foldl
          (fun acc group =>
            let inner := group.foldl (processName store acc.1.length) ([], acc.2.1, acc.2.2)
            (acc.1 ++ [inner.1], inner.2.1, inner.2.2))
          (ress, miss, unw)).2.2 =
        unw ++ groups.flatten.filter
          (fun nm => decide (nm ≠ "") &&
            match store.lookup nm with
            | some r => !r.writable
            | none => false) := by
  induction groups with
  | nil => intro ress miss unw; simp
  | cons g gs ih =>
    intro ress miss unw
    simp only [List.foldl_cons, List.flatten_cons, List.filter_append]
    have hA := processName_fold store ress.length g [] miss unw
    have hB := ih (ress ++ [(g.foldl (processName store ress.length) ([], miss, unw)).1])
      (g.foldl (processName store ress.length) ([], miss, unw)).2.1
      (g.foldl (processName store ress.length) ([], miss, unw)).2.2
    constructor
    · rw [hB.1, hA.1, List.append_assoc]
    · rw [hB.2, hA.2, List.append_assoc]

theorem processGroups_missing (store : List (String × Resource))
    (groups : List (List String)) :
    (processGroups store groups).2.1 =
      groups.flatten.filter
        (fun nm => decide (nm ≠ "") && (store.lookup nm).isNone) := by
  have := (processGroups_fold store groups [] [] []).1
  simpa [processGroups] using this

theorem processGroups_unwritable (store : List (String × Resource))
    (groups : List (List String)) :
    (processGroups store groups).2.2 =
      groups.flatten.filter
        (fun nm => decide (nm ≠ "") &&
          match store.lookup nm with
          | some r => !r.writable
          | none => false) := by
  have := (processGroups_fold store groups [] [] []).2
  simpa [processGroups] using this

theorem processMeasurements_fold (store : List (String × Resource))
    (mnames : List String) :
    ∀ mres miss unr,
      (mnames.foldl
          (fun acc nm =>
            match store.lookup nm with
            | none => (acc.1, acc.2.1 ++ [nm], acc.2.2)
            | some r =>
              if r.readable then (acc.1 ++ [(nm, r)], acc.2.1, acc.2.2)
              else (acc.1, acc.2.1, acc.2.2 ++ [nm]))
          (mres, miss, unr)).2.1 =
        miss ++ mnames.filter (fun nm => (store.lookup nm).isNone) ∧
      (mnames.foldl
          (fun acc nm =>
            match store.lookup nm with
            | none => (acc.1, acc.2.1 ++ [nm], acc.2.2)
            | some r =>
              if r.readable then (acc.1 ++ [(nm, r)], acc.2.1, acc.2.2)
              else (acc.1, acc.2.1, acc.2.2 ++ [nm]))
          (mres, miss, unr)).2.2 =
        unr ++ mnames.filter
          (fun nm =>
            match store.lookup nm with
            | some r => !r.readable
            | none => false) := by
  induction mnames with
  | nil => intro mres miss unr; simp
  | cons nm ns ih =>
    intro mres miss unr
    simp only [List.foldl_cons, List.filter_cons]
    cases hl : store.lookup nm with
    | none =>
      have := ih mres (miss ++ [nm]) unr
      simp [hl, this.1, this.2]
    | some r =>
      by_cases hre : r.readable
      · have := ih (mres ++ [(nm, r)]) miss unr
        simp [hl, hre, this.1, this.2]
      · have := ih mres miss (unr ++ [nm])
        simp [hl, hre, this.1, this.2]

theorem processMeasurements_missing (store : List (String × Resource))
    (mnames : List String) (missing0 : List String) :
    (processMeasurements store mnames missing0).2.1 =
      missing0 ++ mnames.filter (fun nm => (store.lookup nm).isNone) := by
  have := (processMeasurements_fold store mnames [] missing0 []).1
  simpa [processMeasurements] using this

theorem processMeasurements_unreadable (store : List (String × Resource))
    (mnames : List String) (missing0 : List String) :
    (processMeasurements store mnames missing0).2.2 =
      mnames.filter
        (fun nm =>
          match store.lookup nm with
          | some r => !r.readable
          | none => false) := by
  have := (processMeasurements_fold store mnames [] missing0 []).2
  simpa [processMeasurements] using this

theorem flatOutputNames_eq (cfg : CaptureConfig) :
    ((cfg.sort_variables (outputVarsOf cfg)).1.map
        (fun g => g.map (fun v => v.resource_name))).flatten =
      flatOutputNames cfg := by
  simp only [flatOutputNames, flatten]
  exact (List.map_flatten ..).symm

theorem internal_missing_eq (cfg : CaptureConfig) :
    (processMeasurements cfg.store_resources
        ((inputVarsOf cfg).map (fun v => v.resource_name))
        (processGroups cfg.store_resources
          ((cfg.sort_variables (outputVarsOf cfg)).1.map
            (fun g => g.map (fun v => v.resource_name)))).2.1).2.1 =
      specMissing cfg := by
  rw [processMeasurements_missing, processGroups_missing, flatOutputNames_eq]
  rfl

theorem internal_unreadable_eq (cfg : CaptureConfig) :
    (processMeasurements cfg.store_resources
        ((inputVarsOf cfg).map (fun v => v.resource_name))
        (processGroups cfg.store_resources
          ((cfg.sort_variables (outputVarsOf cfg)).1.map
            (fun g => g.map (fun v => v.resource_name)))).2.1).2.2 =
      specUnreadable cfg := by
  rw [processMeasurements_unreadable]
  rfl

theorem internal_unwritable_eq (cfg : CaptureConfig) :
    (processGroups cfg.store_resources
        ((cfg.sort_variables (outputVarsOf cfg)).1.map
          (fun g => g.map (fun v => v.resource_name)))).2.2 =
      specUnwritable cfg := by
  rw [processGroups_unwritable, flatOutputNames_eq]
  rfl

/-- C10: pre-flight resource validation examines every requested name and
accumulates every offender: the reported "Missing resources",
"Unreadable resources" and "Unwritable resources" dialogs each carry the
comma-join of the complete list of offending names (missing output names
in flattened group order followed by missing measurement names; bound but
non-writable output names; bound but non-readable measurement names), one
dialog per non-empty list, and the run launches only when all three lists
are empty. -/
theorem C10_validation_accumulates_all_offenders (cfg : CaptureConfig)
    (h : outputVarsOf cfg ≠ []) :
    (specMissing cfg ≠ [] →
      Effect.message (joinComma (specMissing cfg)) "Missing resources" ∈
        (OnBeginCapture cfg).1) ∧
    (specUnreadable cfg ≠ [] →
      Effect.message (joinComma (specUnreadable cfg)) "Unreadable resources" ∈
        (OnBeginCapture cfg).1) ∧
    (specUnwritable cfg ≠ [] →
      Effect.message (joinComma (specUnwritable cfg)) "Unwritable resources" ∈
        (OnBeginCapture cfg).1) ∧
    ((OnBeginCapture cfg).2.isSome = true →
      specMissing cfg = [] ∧ specUnreadable cfg = [] ∧ specUnwritable cfg = []) := by
  have hM := internal_missing_eq cfg
  have hR := internal_unreadable_eq cfg
  have hW := internal_unwritable_eq cfg
  have hne : (outputVarsOf cfg).isEmpty = false := by
    simpa [List.isEmpty_iff] using h
  simp only [OnBeginCapture, hne]
  rw [hM, hR, hW]
  split_ifs with hdisj hex hdir hisdir hexists <;> simp_all

/-- C10 witness: with one offender of each kind, the Missing dialog lists
both missing names. -/
theorem C10_validation_accumulates_all_offenders_witness :
    specMissing offendersConfig ≠ [] ∧
    Effect.message (joinComma (specMissing offendersConfig)) "Missing resources" ∈
      (OnBeginCapture offendersConfig).1 :=
  ⟨by decide,
    (C10_validation_accumulates_all_offenders offendersConfig (by decide)).1 (by decide)⟩

theorem all_isMessage_errIf (b : Prop) [Decidable b] (t ti : String) :
    ((if b then [Effect.message t ti] else []).all Effect.isMessage) = true := by
  split <;> simp [Effect.isMessage]

theorem openFile_not_mem_errIf (b : Prop) [Decidable b] (t ti : String) (p : String) :
    Effect.openFile p ∉ (if b then [Effect.message t ti] else []) := by
  split <;> simp

/-- C5: the run launches exactly when no pre-flight error is present (some
output variable defined; no missing, unreadable or unwritable resource;
and, when exporting, a selected and valid directory whose auto-named
destination file does not yet exist); when any error is present, the only
effects are message dialogs (so no dialog is created, no notification is
sent and no file is opened), and an `openFile` effect only ever targets a
path that did not exist. -/
theorem C5_preflight_errors_block_launch (cfg : CaptureConfig) :
    ((OnBeginCapture cfg).2.isSome = true ↔ preflightOk cfg) ∧
    ((OnBeginCapture cfg).2 = none →
      (OnBeginCapture cfg).1.all Effect.isMessage = true ∧ (OnBeginCapture cfg).1 ≠ []) ∧
    (∀ p, Effect.openFile p ∈ (OnBeginCapture cfg).1 → cfg.pathExists p = false) := by
  have hM := internal_missing_eq cfg
  have hR := internal_unreadable_eq cfg
  have hW := internal_unwritable_eq cfg
  simp only [OnBeginCapture]
  rw [hM, hR, hW]
  by_cases he : (outputVarsOf cfg).isEmpty = true
  · rw [if_pos he]
    refine ⟨iff_of_false (by simp) ?_, fun _ => ⟨by simp [Effect.isMessage], by simp⟩,
      fun p hp => by simp at hp⟩
    intro hp
    exact hp.1 (List.isEmpty_iff.mp he)
  · rw [if_neg he]
    by_cases hdisj : specMissing cfg ≠ [] ∨ specUnreadable cfg ≠ [] ∨ specUnwritable cfg ≠ []
    · rw [if_pos hdisj]
      refine ⟨iff_of_false (by simp) ?_, fun _ => ⟨?_, ?_⟩, fun p hp => ?_⟩
      · intro hp
        rcases hdisj with hd | hd | hd
        · exact hd hp.2.1
        · exact hd hp.2.2.1
        · exact hd hp.2.2.2.1
      · simp only [List.all_append, Bool.and_eq_true]
        refine ⟨⟨?_, ?_⟩, ?_⟩ <;> exact all_isMessage_errIf _ _ _
      · rcases hdisj with hd | hd | hd <;> simp [hd]
      · simp only [List.mem_append] at hp
        rcases hp with (hp | hp) | hp <;>
          exact absurd hp (openFile_not_mem_errIf _ _ _ _)
    · rw [if_neg hdisj]
      push_neg at hdisj
      have hone : outputVarsOf cfg ≠ [] := by
        intro habs
        exact he (by simp [habs, List.isEmpty_iff])
      by_cases hex : cfg.export_enabled = true
      · rw [if_pos hex]
        by_cases hdir : cfg.directory = ""
        · rw [if_pos hdir]
          refine ⟨iff_of_false (by simp) ?_, fun _ => ⟨by simp [Effect.isMessage], by simp⟩,
            fun p hp => by simp at hp⟩
          intro hp
          exact (hp.2.2.2.2 hex).1 hdir
        · rw [if_neg hdir]
          by_cases hisdir : ¬cfg.isdir cfg.directory = true
          · rw [if_pos hisdir]
            refine ⟨iff_of_false (by simp) ?_, fun _ => ⟨by simp [Effect.isMessage], by simp⟩,
              fun p hp => by simp at hp⟩
            intro hp
            exact hisdir (hp.2.2.2.2 hex).2.1
          · rw [if_neg hisdir]
            rw [not_not] at hisdir
            by_cases hexists :
                cfg.pathExists (pathJoin cfg.directory (exportFileName cfg.localtime)) = true
            · rw [if_pos hexists]
              refine ⟨iff_of_false (by simp) ?_, fun _ => ⟨by simp [Effect.isMessage], by simp⟩,
                fun p hp => by simp at hp⟩
              intro hp
              rw [(hp.2.2.2.2 hex).2.2] at hexists
              exact Bool.false_ne_true hexists
            · rw [if_neg hexists]
              refine ⟨iff_of_true (by simp) ?_, fun habs => by simp at habs, fun p hp => ?_⟩
              · exact ⟨hone, hdisj.1, hdisj.2.1, hdisj.2.2,
                  fun _ => ⟨hdir, hisdir, Bool.not_eq_true _ ▸ hexists⟩⟩
              · simp at hp
                subst hp
                simpa using hexists
      · rw [if_neg hex]
        refine ⟨iff_of_true (by simp) ?_, fun habs => by simp at habs, fun p hp => ?_⟩
        · exact ⟨hone, hdisj.1, hdisj.2.1, hdisj.2.2, fun habs => absurd habs hex⟩
        · simp at hp

/-- C5 witness: with offending resources present the call produces only
message dialogs, and at least one. -/
theorem C5_preflight_errors_block_launch_witness :
    (OnBeginCapture offendersConfig).1.all Effect.isMessage = true ∧
    (OnBeginCapture offendersConfig).1 ≠ [] :=
  (C5_preflight_errors_block_launch offendersConfig).2.1 (by decide)

theorem eventsFor_append (nm : String) (a b : List Effect) :
    eventsFor nm (a ++ b) = eventsFor nm a ++ eventsFor nm b := by
  simp [eventsFor]

theorem eventsFor_map_pubStart (nm : String) (l : List String) :
    eventsFor nm (l.map Effect.pubStart) =
      (l.filter (fun n => decide (n = nm))).map Effect.pubStart := by
  induction l with
  | nil => rfl
  | cons n ns ih =>
    by_cases h : n = nm <;>
      simp only [eventsFor, List.map_cons, List.filter_cons, List.mem_cons, h] at ih ⊢ <;>
      simp [h, ih]

theorem eventsFor_map_pubStop (nm : String) (l : List String) :
    eventsFor nm (l.map Effect.pubStop) =
      (l.filter (fun n => decide (n = nm))).map Effect.pubStop := by
  induction l with
  | nil => rfl
  | cons n ns ih =>
    by_cases h : n = nm <;>
      simp only [eventsFor, List.map_cons, List.filter_cons, List.mem_cons, h] at ih ⊢ <;>
      simp [h, ih]

theorem eventsFor_map_pubData (nm : String) (l : List (String × Value)) :
    eventsFor nm (l.map (fun p => Effect.pubData p.1 p.2)) =
      (l.filter (fun p => decide (p.1 = nm))).map (fun p => Effect.pubData p.1 p.2) := by
  induction l with
  | nil => rfl
  | cons p ps ih =>
    by_cases h : p.1 = nm <;>
      simp only [eventsFor, List.map_cons, List.filter_cons, h] at ih ⊢ <;>
      simp [h, ih]

theorem eventsFor_map_csvWriteRow (nm : String) (l : List (List Value)) :
    eventsFor nm (l.map Effect.csvWriteRow) = [] := by
  induction l with
  | nil => rfl
  | cons r rs ih => simp only [eventsFor, List.map_cons, List.filter_cons] at ih ⊢; simp [ih]

theorem eventsFor_data_callback (nm : String) (e : Bool) (m : List String)
    (buf : List (List Value)) (t : Value) (vs ms : List Value) :
    eventsFor nm (data_callback e m buf t vs ms).1 =
      ((m.zip ms).filter (fun p => decide (p.1 = nm))).map
        (fun p => Effect.pubData p.1 p.2) := by
  rcases e
  · show eventsFor nm ((m.zip ms).map (fun p => Effect.pubData p.1 p.2)) = _
    exact eventsFor_map_pubData nm (m.zip ms)
  · rw [data_callback_true]
    by_cases hb : max_buf_size ≤ buf.length + 1
    · rw [if_pos hb]
      simp only [eventsFor_append, eventsFor_map_pubData, eventsFor_map_csvWriteRow]
      have h1 : eventsFor nm [Effect.fileFlush] = [] := rfl
      rw [h1]
      simp
    · rw [if_neg hb]
      exact eventsFor_map_pubData nm (m.zip ms)

theorem eventsFor_runRows (nm : String) (e : Bool) (m : List String)
    (rows : List (Value × List Value × List Value)) :
    ∀ buf, eventsFor nm (runRows e m rows buf).1 =
      rows.flatMap (fun r =>
        ((m.zip r.2.2).filter (fun p => decide (p.1 = nm))).map
          (fun p => Effect.pubData p.1 p.2)) := by
  induction rows with
  | nil => intro buf; rfl
  | cons r rs ih =>
    intro buf
    simp only [runRows, eventsFor_append, eventsFor_data_callback, ih, List.flatMap_cons]

theorem eventsFor_close_callback (nm : String) (e : Bool) (m : List String)
    (buf : List (List Value)) :
    eventsFor nm (close_callback e m buf).1 =
      (m.filter (fun n => decide (n = nm))).map Effect.pubStop := by
  rcases e
  · show eventsFor nm ([] ++ m.map Effect.pubStop) = _
    rw [eventsFor_append, eventsFor_map_pubStop]
    rfl
  · show eventsFor nm ((buf.map Effect.csvWriteRow ++ [Effect.fileFlush]) ++
      [Effect.fileClose] ++ m.map Effect.pubStop) = _
    simp only [eventsFor_append, eventsFor_map_csvWriteRow, eventsFor_map_pubStop]
    have h1 : eventsFor nm [Effect.fileFlush] = [] := rfl
    have h2 : eventsFor nm [Effect.fileClose] = [] := rfl
    simp [h1, h2]

theorem eventsFor_runTrace (nm : String) (e : Bool) (m : List String)
    (rows : List (Value × List Value × List Value)) :
    eventsFor nm (runTrace e m rows) =
      (m.filter (fun n => decide (n = nm))).map Effect.pubStart ++
      rows.flatMap (fun r =>
        ((m.zip r.2.2).filter (fun p => decide (p.1 = nm))).map
          (fun p => Effect.pubData p.1 p.2)) ++
      (m.filter (fun n => decide (n = nm))).map Effect.pubStop := by
  simp only [runTrace, runTraceFull, eventsFor_append, eventsFor_map_pubStart,
    eventsFor_runRows, eventsFor_close_callback, List.append_assoc]

theorem filter_eq_nil_of_not_mem (l : List String) (nm : String) (h : nm ∉ l) :
    l.filter (fun n => decide (n = nm)) = [] := by
  apply List.filter_eq_nil_iff.mpr
  intro a ha hd
  exact h (of_decide_eq_true hd ▸ ha)

theorem filter_eq_of_count_one (l : List String) (nm : String) (h : l.count nm = 1) :
    l.filter (fun n => decide (n = nm)) = [nm] := by
  induction l with
  | nil => simp at h
  | cons a as ih =>
    by_cases ha : a = nm
    · subst ha
      have hz : as.count a = 0 := by
        simp [List.count_cons] at h
        omega
      rw [List.filter_cons, filter_eq_nil_of_not_mem as a (List.count_eq_zero.mp hz)]
      simp
    · rw [List.filter_cons]
      have : (decide (a = nm)) = false := decide_eq_false ha
      rw [this]
      simp only [Bool.false_eq_true, if_neg]
      apply ih
      simpa [List.count_cons, ha] using h

theorem zip_filter_length (nm : String) :
    ∀ (m : List String) (mv : List Value), mv.length = m.length →
      ((m.zip mv).filter (fun p => decide (p.1 = nm))).length = m.count nm := by
  intro m
  induction m with
  | nil => intro mv h; simp
  | cons n ns ih =>
    intro mv h
    cases mv with
    | nil => simp at h
    | cons v vs =>
      simp only [List.length_cons, Nat.add_right_cancel_iff] at h
      by_cases hn : n = nm
      · subst hn
        simp [List.zip_cons_cons, List.filter_cons, List.count_cons, ih vs h]
      · simp [List.zip_cons_cons, List.filter_cons, List.count_cons, hn, ih vs h]

theorem pubData_map_filter (nm : String) (m : List String) (mv : List Value) :
    ((m.zip mv).filter (fun p => decide (p.1 = nm))).map
        (fun p => Effect.pubData p.1 p.2) =
      (sampleFor nm m mv).map (Effect.pubData nm) := by
  simp only [sampleFor, List.map_map]
  apply List.map_congr_left
  intro p hp
  have := of_decide_eq_true (List.mem_filter.mp hp).2
  simp [this]

/-- C3 counterexample: two enabled input variables may name the same
resource; the run launches with measurement names `["a", "a"]` and the
launch itself publishes `data_capture.start` for `"a"` twice (and the
close publishes `data_capture.stop` for `"a"` twice), so started/stopped
are not delivered exactly once per resource name. -/
theorem C3_started_stopped_twice_counterexample :
    ((OnBeginCapture duplicateNamesConfig).2.map
        (fun r => r.input_variables.map (fun v => v.resource_name))) = some ["a", "a"] ∧
    (OnBeginCapture duplicateNamesConfig).1.count (Effect.pubStart "a") = 2 ∧
    (runTrace false ["a", "a"] []).count (Effect.pubStop "a") = 2 := by
  decide

/-- C3 amended: for every resource name — duplicated occurrences
included — the events concerning it over the whole run are all its
`started` notifications (one per occurrence in the measurement list),
then all its `produced` notifications (grouped per captured Data Row, in
capture order), then all its `stopped` notifications (one per
occurrence); and when a resource name occurs exactly once (pairwise
distinct names), its events are exactly one `started`, then one
`produced` per captured Data Row (carrying the name and its measured
value), then one `stopped`. -/
theorem C3_per_name_event_order (e : Bool) (m : List String) (nm : String)
    (rows : List (Value × List Value × List Value)) :
    eventsFor nm (runTrace e m rows) =
      (m.filter (fun n => decide (n = nm))).map Effect.pubStart ++
      rows.flatMap (fun r => (sampleFor nm m r.2.2).map (Effect.pubData nm)) ++
      (m.filter (fun n => decide (n = nm))).map Effect.pubStop ∧
    (m.count nm = 1 →
      eventsFor nm (runTrace e m rows) =
        Effect.pubStart nm ::
          (rows.flatMap (fun r => (sampleFor nm m r.2.2).map (Effect.pubData nm)) ++
            [Effect.pubStop nm]) ∧
      ∀ r ∈ rows, r.2.2.length = m.length → (sampleFor nm m r.2.2).length = 1) := by
  constructor
  · rw [eventsFor_runTrace]
    simp only [pubData_map_filter]
  · intro h1
    have hfil := filter_eq_of_count_one m nm h1
    constructor
    · rw [eventsFor_runTrace, hfil]
      simp only [pubData_map_filter, List.map_cons, List.map_nil, List.cons_append,
        List.nil_append, List.append_assoc]
    · intro r hr hlen
      have := zip_filter_length nm m r.2.2 hlen
      rw [h1] at this
      simpa [sampleFor] using this

/-- C3 witness: with names `["a", "b"]` and one captured row, the events
for `"a"` are started, one produced, stopped. -/
theorem C3_per_name_event_order_witness :
    eventsFor "a" (runTrace true ["a", "b"] [("1", ["x"], ["va", "vb"])]) =
      Effect.pubStart "a" ::
        ([("1", ["x"], ["va", "vb"])].flatMap
          (fun r => (sampleFor "a" ["a", "b"] r.2.2).map (Effect.pubData "a")) ++
          [Effect.pubStop "a"]) :=
  (((C3_per_name_event_order true ["a", "b"] "a" [("1", ["x"], ["va", "vb"])]).2
    (by decide)).1)

theorem toString_nat_length_le (n w : Nat) (hw : 0 < w) (h : n < 10 ^ w) :
    (toString n).length ≤ w := Nat.repr_length n w hw h

theorem formatInt_length (w n : Nat) (hw : 0 < w) (h : n < 10 ^ w) :
    (formatInt w n).length = w := by
  have hle : (toString n).length ≤ w := toString_nat_length_le n w hw h
  unfold formatInt
  by_cases hlt : (toString n).length < w
  · rw [if_pos hlt, String.length_append]
    have hmk : (String.mk (List.replicate (w - (toString n).length) '0')).length =
        w - (toString n).length := by
      rw [show (String.mk (List.replicate (w - (toString n).length) '0')).length =
        (List.replicate (w - (toString n).length) '0').length from rfl,
        List.length_replicate]
    omega
  · rw [if_neg hlt]
    omega

theorem sinkRows_runTrace (mnames : List String)
    (rows : List (Value × List Value × List Value)) :
    sinkRows (runTrace true mnames rows) =
      rows.map (fun r => mkRow r.1 r.2.1 r.2.2) := by
  have hmid := runRows_sink mnames rows []
  simp only [List.nil_append] at hmid
  have hclose := close_callback_sink mnames (runRows true mnames rows []).2
  simp only [runTrace, runTraceFull, sinkRows_append, sinkRows_map_pubStart,
    List.nil_append]
  rw [hclose.1]
  exact hmid

/-- C6: when a run launches with export enabled, the export file is
`<directory>/<YYYY-MM-DD_HH-MM-SS>.csv` built from the local start time
(4-digit zero-padded year, 2-digit zero-padded other fields, 23
characters in all), the only row written by the launch is the header
`__time__`, the output variable names in flattened group order, then the
input variable names in order; every data row `(timestamp, outputs,
inputs)` has exactly as many columns as the header, and the whole run
writes the header first followed by one row per Data Row in capture
order. -/
theorem C6_export_file_format (cfg : CaptureConfig) (run : LaunchedRun)
    (hex : cfg.export_enabled = true)
    (hrun : (OnBeginCapture cfg).2 = some run)
    (hyr : cfg.localtime.year < 10000) (hmo : cfg.localtime.mon < 100)
    (hmd : cfg.localtime.mday < 100) (hhr : cfg.localtime.hour < 100)
    (hmi : cfg.localtime.minute < 100) (hse : cfg.localtime.second < 100) :
    run.file_path = pathJoin cfg.directory (exportFileName cfg.localtime) ∧
    sinkRows (OnBeginCapture cfg).1 =
      ["__time__" :: ((flatten run.output_variables).map (fun v => v.name) ++
        run.input_variables.map (fun v => v.name))] ∧
    (formatInt 4 cfg.localtime.year).length = 4 ∧
    (formatInt 2 cfg.localtime.mon).length = 2 ∧
    (formatInt 2 cfg.localtime.mday).length = 2 ∧
    (formatInt 2 cfg.localtime.hour).length = 2 ∧
    (formatInt 2 cfg.localtime.minute).length = 2 ∧
    (formatInt 2 cfg.localtime.second).length = 2 ∧
    (exportFileName cfg.localtime).length = 23 ∧
    (∀ t vs ms, vs.length = (flatten run.output_variables).length →
      ms.length = run.input_variables.length →
      (mkRow t vs ms).length =
        ("__time__" :: ((flatten run.output_variables).map (fun v => v.name) ++
          run.input_variables.map (fun v => v.name))).length) ∧
    (∀ rows, sinkRows ((OnBeginCapture cfg).1 ++
        runTrace true (run.input_variables.map (fun v => v.resource_name)) rows) =
      ("__time__" :: ((flatten run.output_variables).map (fun v => v.name) ++
        run.input_variables.map (fun v => v.name))) ::
        rows.map (fun r => mkRow r.1 r.2.1 r.2.2)) := by
  have h4 : (formatInt 4 cfg.localtime.year).length = 4 :=
    formatInt_length 4 _ (by norm_num) (by norm_num [hyr])
  have hmo2 : (formatInt 2 cfg.localtime.mon).length = 2 :=
    formatInt_length 2 _ (by norm_num) (by norm_num [hmo])
  have hmd2 : (formatInt 2 cfg.localtime.mday).length = 2 :=
    formatInt_length 2 _ (by norm_num) (by norm_num [hmd])
  have hhr2 : (formatInt 2 cfg.localtime.hour).length = 2 :=
    formatInt_length 2 _ (by norm_num) (by norm_num [hhr])
  have hmi2 : (formatInt 2 cfg.localtime.minute).length = 2 :=
    formatInt_length 2 _ (by norm_num) (by norm_num [hmi])
  have hse2 : (formatInt 2 cfg.localtime.second).length = 2 :=
    formatInt_length 2 _ (by norm_num) (by norm_num [hse])
  have hlen : (exportFileName cfg.localtime).length = 23 := by
    simp only [exportFileName, String.length_append, h4, hmo2, hmd2, hhr2, hmi2, hse2]
    rfl
  have hM := internal_missing_eq cfg
  have hR := internal_unreadable_eq cfg
  have hW := internal_unwritable_eq cfg
  simp only [OnBeginCapture] at hrun ⊢
  rw [hM, hR, hW] at hrun ⊢
  by_cases he : (outputVarsOf cfg).isEmpty = true
  · rw [if_pos he] at hrun
    simp at hrun
  · rw [if_neg he] at hrun ⊢
    by_cases hdisj : specMissing cfg ≠ [] ∨ specUnreadable cfg ≠ [] ∨ specUnwritable cfg ≠ []
    · rw [if_pos hdisj] at hrun
      simp at hrun
    · rw [if_neg hdisj] at hrun ⊢
      rw [if_pos hex] at hrun ⊢
      by_cases hdir : cfg.directory = ""
      · rw [if_pos hdir] at hrun
        simp at hrun
      · rw [if_neg hdir] at hrun ⊢
        by_cases hisdir : ¬cfg.isdir cfg.directory = true
        · rw [if_pos hisdir] at hrun
          simp at hrun
        · rw [if_neg hisdir] at hrun ⊢
          by_cases hexists :
              cfg.pathExists (pathJoin cfg.directory (exportFileName cfg.localtime)) = true
          · rw [if_pos hexists] at hrun
            simp at hrun
          · rw [if_neg hexists] at hrun ⊢
            rw [Option.some.injEq] at hrun
            subst hrun
            have hhead : sinkRows ([Effect.openFile
                  (pathJoin cfg.directory (exportFileName cfg.localtime)),
                Effect.setLastFileName (pathJoin cfg.directory (exportFileName cfg.localtime)),
                Effect.csvWriteRow ("__time__" ::
                  ((flatten (cfg.sort_variables (outputVarsOf cfg)).1).map (fun v => v.name) ++
                    (inputVarsOf cfg).map (fun v => v.name)))] ++
                [Effect.createDialog] ++
                ((inputVarsOf cfg).map (fun v => v.resource_name)).map Effect.pubStart ++
                [Effect.dialogShow, Effect.dialogStart]) =
              ["__time__" ::
                ((flatten (cfg.sort_variables (outputVarsOf cfg)).1).map (fun v => v.name) ++
                  (inputVarsOf cfg).map (fun v => v.name))] := by
              simp [sinkRows_append, sinkRows_map_pubStart, sinkRows]
            refine ⟨rfl, ?_, h4, hmo2, hmd2, hhr2, hmi2, hse2, hlen, ?_, ?_⟩
            · exact hhead
            · intro t vs ms h1 h2
              dsimp only at h1 h2
              simp only [mkRow, List.length_cons, List.length_append, List.length_map]
              omega
            · intro rows
              rw [sinkRows_append, sinkRows_runTrace]
              rw [hhead]
              rfl

/-- C6 witness: the demo exporting run is named from the start time
2026-10-12 08:46:03 and its launch writes exactly the header row. -/
theorem C6_export_file_format_witness :
    (exportFileName exportingConfig.localtime).length = 23 ∧
    sinkRows (OnBeginCapture exportingConfig).1 = [["__time__", "out0", "in0"]] := by
  have h := C6_export_file_format exportingConfig
    ⟨[[("ro", some ⟨false, true⟩)]], [[⟨"out0", true, "ro", VarKind.output⟩]], 1,
      [("ri", ⟨true, false⟩)], [⟨"in0", true, "ri", VarKind.input⟩], false, true,
      "/data/2026-10-12_08-46-03.csv"⟩
    rfl (by decide) (by decide) (by decide) (by decide) (by decide) (by decide) (by decide)
  refine ⟨h.2.2.2.2.2.2.2.2.1, ?_⟩
  rw [h.2.1]
  decide
